import Mathlib

/-!
Shallow embedding of the per-device log analysis pipeline
(`src/log_system.py`, `src/log_analyzer.py`): bounded per-device history
buffers, periodic ratio statistics, and the rolling-average alert window,
together with proofs of the specification's claims about them.
-/

namespace LogSystem

/-- Log severity levels (`CONFIG['log_levels']`). -/
inductive LogLevel where
  | INFO
  | WARN
  | ERROR
deriving DecidableEq, Repr

/-- A log entry as produced by `LogGenerator.generate_log`. -/
structure LogEntry where
  device_id : String
  timestamp : String
  log_level : LogLevel
  message : String
deriving DecidableEq, Repr

/-- An alert as built in `LogAnalyzer.analyze_logs`. -/
structure Alert where
  device_id : String
  timestamp : String
  message : String
  severity : String
deriving DecidableEq, Repr

/-- An analysis result as built in `LogAnalyzer.analyze_logs`. -/
structure AnalysisResult where
  device_id : String
  timestamp : String
  error_ratio : ℚ
  warn_ratio : ℚ
  last_error : Option LogEntry
  alert_count : Nat
deriving DecidableEq, Repr

/-- Python `collections.deque(maxlen := m)` append: after appending, only the
`m` most recent elements are retained, oldest evicted first. -/
def dequeAppend {α : Type} (m : Nat) (l : List α) (x : α) : List α :=
  let l2 := l ++ [x]
  l2.drop (l2.length - m)

/-- Appending a whole sequence into a bounded deque, starting from `l`. -/
def dequeExtend {α : Type} (m : Nat) (l : List α) (xs : List α) : List α :=
  xs.foldl (dequeAppend m) l

/-- The configuration values from `CONFIG` that the analyzer reads:
`analysis_window` is the history capacity N, `alert_window` the alert window
capacity S, `alert_threshold` the breach threshold. -/
structure Config where
  analysis_window : Nat
  alert_window : Nat
  alert_threshold : ℚ
deriving Repr

/-- The values hard-coded in `CONFIG` in `src/log_system.py`. -/
def defaultConfig : Config :=
  { analysis_window := 20, alert_window := 10, alert_threshold := 1/2 }

/-- Per-device status, `device_status[device_id]` in `LogAnalyzer`. -/
structure DeviceStatus where
  last_error : Option LogEntry
  alerts : List Alert
deriving DecidableEq, Repr

/-- The mutable state of a `LogAnalyzer`: the configured device ids (the keys
of its dictionaries) together with `logs_cache`, `device_status` and
`alert_windows`. -/
structure AnalyzerState where
  devices : List String
  logs_cache : String → List LogEntry
  device_status : String → DeviceStatus
  alert_windows : String → List ℚ

/-- `LogAnalyzer.__init__`: empty caches, no last error, no alerts, empty
alert windows, for each configured device id. -/
def initState (devices : List String) : AnalyzerState :=
  { devices := devices
    logs_cache := fun _ => []
    device_status := fun _ => { last_error := none, alerts := [] }
    alert_windows := fun _ => [] }

/-- One iteration of `LogAnalyzer.process_logs` on a dequeued entry: the entry
is appended to its device's bounded cache (`deque(maxlen=N)`). For a device id
absent from `logs_cache` the lookup raises `KeyError`, which the bare
`except:` swallows, so the entry is silently lost. -/
def processLog (cfg : Config) (st : AnalyzerState) (log : LogEntry) :
    AnalyzerState :=
  if log.device_id ∈ st.devices then
    { st with logs_cache := fun d =>
        if d = log.device_id then
          dequeAppend cfg.analysis_window (st.logs_cache d) log
        else st.logs_cache d }
  else st

/-- The `LogAnalyzer.process_logs` loop draining every entry currently in
`log_queue`, in FIFO order. -/
def process_logs (cfg : Config) (st : AnalyzerState) (queue : List LogEntry) :
    AnalyzerState :=
  queue.foldl (processLog cfg) st

/-- The alert-window check in `LogAnalyzer.analyze_logs`: append the cycle's
`error_ratio` to the bounded window; when the window is then at capacity S and
the mean exceeds the threshold, emit one CRITICAL alert and clear the window. -/
def alertCheck (cfg : Config) (device_id now : String) (window : List ℚ)
    (error_ratio : ℚ) : List ℚ × Option Alert :=
  let w1 := dequeAppend cfg.alert_window window error_ratio
  if w1.length = cfg.alert_window then
    let avg := w1.sum / (cfg.alert_window : ℚ)
    if avg > cfg.alert_threshold then
      ([], some { device_id := device_id, timestamp := now,
                  message := "设备" ++ device_id ++ " ERROR比例超过50%",
                  severity := "CRITICAL" })
    else (w1, none)
  else (w1, none)

/-- `error_count / total` over a history snapshot (`analyze_logs`). -/
def errorRatio (logs : List LogEntry) : ℚ :=
  ((logs.filter (fun log => log.log_level = LogLevel.ERROR)).length : ℚ) /
    (logs.length : ℚ)

/-- `warn_count / total` over a history snapshot (`analyze_logs`). -/
def warnRatio (logs : List LogEntry) : ℚ :=
  ((logs.filter (fun log => log.log_level = LogLevel.WARN)).length : ℚ) /
    (logs.length : ℚ)

/-- The body of `LogAnalyzer.analyze_logs` for one device: skip if the cache
is empty; otherwise compute `error_ratio` and `warn_ratio`, update
`last_error` (sticky when no ERROR entry is present), run the alert check,
and finally publish the analysis result. -/
def analyzeDevice (cfg : Config) (now : String) (st : AnalyzerState)
    (device_id : String) :
    AnalyzerState × Option AnalysisResult × Option Alert :=
  let logs := st.logs_cache device_id
  if logs = [] then (st, none, none)
  else
    let error_ratio := errorRatio logs
    let warn_ratio := warnRatio logs
    let error_logs := logs.filter (fun log => log.log_level = LogLevel.ERROR)
    let last_error := match error_logs.getLast? with
      | some e => some e
      | none => (st.device_status device_id).last_error
    let checked := alertCheck cfg device_id now (st.alert_windows device_id)
      error_ratio
    let alerts2 := match checked.2 with
      | some a => (st.device_status device_id).alerts ++ [a]
      | none => (st.device_status device_id).alerts
    let st2 : AnalyzerState :=
      { st with
        device_status := fun d =>
          if d = device_id then { last_error := last_error, alerts := alerts2 }
          else st.device_status d
        alert_windows := fun d =>
          if d = device_id then checked.1 else st.alert_windows d }
    let result : AnalysisResult :=
      { device_id := device_id, timestamp := now, error_ratio := error_ratio,
        warn_ratio := warn_ratio, last_error := last_error,
        alert_count := alerts2.length }
    (st2, some result, checked.2)

/-- One step of the per-device loop in `LogAnalyzer.analyze_logs`. -/
def analyzeFoldStep (cfg : Config) (now : String)
    (acc : AnalyzerState × List AnalysisResult × List Alert)
    (device_id : String) :
    AnalyzerState × List AnalysisResult × List Alert :=
  let st2 := analyzeDevice cfg now acc.1 device_id
  (st2.1, acc.2.1 ++ st2.2.1.toList, acc.2.2 ++ st2.2.2.toList)

/-- `LogAnalyzer.analyze_logs`: analyze each configured device in order,
collecting the analysis results and alerts put on the output queues. -/
def analyze_logs (cfg : Config) (now : String) (st : AnalyzerState) :
    AnalyzerState × List AnalysisResult × List Alert :=
  st.devices.foldl (analyzeFoldStep cfg now) (st, [], [])

/-- One analysis cycle of `LogAnalyzer.start`: drain the entries available on
the ingestion queue via `process_logs`, then run `analyze_logs` at the cycle's
wall-clock time. -/
def runCycle (cfg : Config) (st : AnalyzerState)
    (entries : List LogEntry) (now : String) :
    AnalyzerState × List AnalysisResult × List Alert :=
  analyze_logs cfg now (process_logs cfg st entries)

/-- One cycle of the pipeline inside `runPipeline`: a cycle carries the
entries drained before it and its wall-clock timestamp; the outputs are
accumulated. -/
def pipelineStep (cfg : Config)
    (acc : AnalyzerState × List AnalysisResult × List Alert)
    (c : List LogEntry × String) :
    AnalyzerState × List AnalysisResult × List Alert :=
  let step := runCycle cfg acc.1 c.1 c.2
  (step.1, acc.2.1 ++ step.2.1, acc.2.2 ++ step.2.2)

/-- The pipeline over a schedule of cycles (see `runCycle` and
`pipelineStep`), accumulating the published outputs in order. -/
def runPipeline (cfg : Config) (st : AnalyzerState)
    (cycles : List (List LogEntry × String)) :
    AnalyzerState × List AnalysisResult × List Alert :=
  cycles.foldl (pipelineStep cfg) (st, [], [])

/-- Iterating the per-cycle alert check of `analyze_logs` over a sequence of
`error_ratio` samples, collecting every alert it emits. -/
def alertRun (cfg : Config) (device_id now : String) (window : List ℚ)
    (ratios : List ℚ) : List ℚ × List Alert :=
  ratios.foldl
    (fun acc r =>
      let c := alertCheck cfg device_id now acc.1 r
      (c.1, acc.2 ++ c.2.toList))
    (window, [])

/-- The ingestion step of `log_analyzer` in `src/log_analyzer.py`: on first
sighting of a device id a fresh bounded deque is created lazily, then the
entry is appended. -/
def la_ingest (N : Nat) (device_logs : String → Option (List LogEntry))
    (log : LogEntry) : String → Option (List LogEntry) :=
  let old := (device_logs log.device_id).getD []
  fun d =>
    if d = log.device_id then some (dequeAppend N old log) else device_logs d

/-- Modelled from the spec: startup validation of the configuration surface
(spec sections 6 and 7). The source holds only hard-coded constants
(`CONFIG` in `log_system.py`; `N`, `T`, `S` in `log_analyzer.py`) and no
validation code, so the eager rejection with a message naming the invalid
parameter is modelled from the spec's words. -/
def validateConfig (N T S : Int) (threshold : ℚ) : Except String Unit :=
  if N ≤ 0 then Except.error "invalid analysis_window N: must be > 0"
  else if T ≤ 0 then Except.error "invalid analysis_interval T: must be > 0"
  else if S ≤ 0 then Except.error "invalid alert_window S: must be > 0"
  else if ¬ (0 < threshold ∧ threshold < 1) then
    Except.error "invalid alert_threshold: must satisfy 0 < threshold < 1"
  else Except.ok ()

/-- Modelled from the spec: startup validates the configuration before any
log entry is processed; only a valid configuration yields a running analyzer
state (the missing validation code, continued from `validateConfig`). -/
def startAnalyzer (N T S : Int) (threshold : ℚ) (devices : List String) :
    Except String AnalyzerState :=
  match validateConfig N T S threshold with
  | Except.error msg => Except.error msg
  | Except.ok _ => Except.ok (initState devices)

/-- `info_count / total` over a history snapshot: the ratio of INFO entries
implied by the two computed ratios (the levels are exactly INFO, WARN,
ERROR). -/
def infoRatio (logs : List LogEntry) : ℚ :=
  ((logs.filter (fun log => log.log_level = LogLevel.INFO)).length : ℚ) /
    (logs.length : ℚ)

/-- The newest ERROR entry of a snapshot (scanning newest to oldest), else
the previously stored value: the specified update of `last_error`. -/
def newestErrorElse (logs : List LogEntry) (prev : Option LogEntry) :
    Option LogEntry :=
  match logs.reverse.find? (fun log => log.log_level = LogLevel.ERROR) with
  | some e => some e
  | none => prev

/-- A sample ERROR entry of device1 (`sample_messages`). -/
def entryE : LogEntry :=
  { device_id := "device1", timestamp := "t1", log_level := LogLevel.ERROR,
    message := "服务崩溃" }

/-- A sample WARN entry of device1. -/
def entryW : LogEntry :=
  { device_id := "device1", timestamp := "t2", log_level := LogLevel.WARN,
    message := "内存使用率过高" }

/-- A sample INFO entry of device1. -/
def entryI : LogEntry :=
  { device_id := "device1", timestamp := "t3", log_level := LogLevel.INFO,
    message := "系统状态正常" }

/-- An entry of a device id outside `CONFIG['device_ids']`. -/
def entryX : LogEntry :=
  { device_id := "device4", timestamp := "t4", log_level := LogLevel.ERROR,
    message := "硬件故障" }

/-- A sample INFO entry of device2. -/
def entryB : LogEntry :=
  { device_id := "device2", timestamp := "t5", log_level := LogLevel.INFO,
    message := "操作已完成" }

/-- The configured device ids (`CONFIG['device_ids']`). -/
def demoDevices : List String := ["device1", "device2", "device3"]

/-- The freshly initialized analyzer over the configured devices. -/
def demoState : AnalyzerState := initState demoDevices

/-- An analyzer state one breaching cycle away from an alert under
`defaultConfig`: device1's cache holds one ERROR entry and its alert window
already holds nine samples of ratio 1. -/
def brinkState : AnalyzerState :=
  { devices := demoDevices
    logs_cache := fun d => if d = "device1" then [entryE] else []
    device_status := fun _ => { last_error := none, alerts := [] }
    alert_windows := fun d =>
      if d = "device1" then List.replicate 9 (1 : ℚ) else [] }

/-- A state whose device1 cache holds one entry of each level, with window
capacity 2 configured below. -/
def mixedState : AnalyzerState :=
  { devices := demoDevices
    logs_cache := fun d => if d = "device1" then [entryE, entryW, entryI] else []
    device_status := fun _ => { last_error := none, alerts := [] }
    alert_windows := fun _ => [] }

/-- A state for the sticky `last_error` check: device1's cache holds only an
INFO entry while its stored `last_error` remembers `entryE`. -/
def quietState : AnalyzerState :=
  { devices := demoDevices
    logs_cache := fun d => if d = "device1" then [entryI] else []
    device_status := fun d =>
      if d = "device1" then { last_error := some entryE, alerts := [] }
      else { last_error := none, alerts := [] }
    alert_windows := fun _ => [] }

/-- The invariant behind C10: device `d`'s cache holds no ERROR entry and
its alert window holds only zero samples. -/
def CleanFor (d : String) (st : AnalyzerState) : Prop :=
  (∀ e ∈ st.logs_cache d, e.log_level ≠ LogLevel.ERROR) ∧
  (∀ x ∈ st.alert_windows d, x = (0 : ℚ))

/-- A two-cycle schedule in which device1 only ever ingests INFO entries. -/
def quietCycles : List (List LogEntry × String) :=
  [([entryI], "t7"), ([entryI, entryB], "t8")]

/-- A small configuration with alert window capacity S = 2. -/
def smallConfig : Config :=
  { analysis_window := 20, alert_window := 2, alert_threshold := 1/2 }

/-- A state under `smallConfig` one sample short of a full alert window. -/
def almostState : AnalyzerState :=
  { devices := demoDevices
    logs_cache := fun d => if d = "device1" then [entryE] else []
    device_status := fun _ => { last_error := none, alerts := [] }
    alert_windows := fun d => if d = "device1" then [(1 : ℚ)] else [] }

/-! ## Theorems -/

theorem dequeAppend_length {α : Type} (m : Nat) (l : List α) (x : α) :
    (dequeAppend m l x).length = min (l.length + 1) m := by
  simp [dequeAppend]
  omega

theorem dequeAppend_length_le {α : Type} (m : Nat) (l : List α) (x : α) :
    (dequeAppend m l x).length ≤ m := by
  rw [dequeAppend_length]; omega

theorem dequeAppend_eq_of_lt {α : Type} (m : Nat) (l : List α) (x : α)
    (h : l.length + 1 ≤ m) : dequeAppend m l x = l ++ [x] := by
  have h0 : (l ++ [x]).length - m = 0 := by simp; omega
  simp only [dequeAppend, h0, List.drop_zero]

/-- Starting from an empty deque, extending by `xs` retains exactly the last
`m` elements of `xs`, in their original order. -/
theorem dequeExtend_nil {α : Type} (m : Nat) (xs : List α) :
    dequeExtend m [] xs = xs.drop (xs.length - m) := by
  induction xs using List.reverseRecOn with
  | nil => simp [dequeExtend]
  | append_singleton xs x ih =>
    rw [dequeExtend, List.foldl_append]
    simp only [List.foldl_cons, List.foldl_nil]
    rw [← dequeExtend, ih]
    rcases le_or_lt (xs.length + 1) m with hm | hm
    · have h1 : xs.length - m = 0 := by omega
      have h2 : (xs ++ [x]).length - m = 0 := by simp; omega
      rw [h1, h2, List.drop_zero, List.drop_zero,
        dequeAppend_eq_of_lt m xs x hm]
    · have hm' : m ≤ xs.length := by omega
      have hlen : (xs.drop (xs.length - m)).length = m := by
        simp; omega
      have h3 : xs.drop (xs.length - m) ++ [x] =
          (xs ++ [x]).drop (xs.length - m) :=
        (List.drop_append_of_le_length (by omega)).symm
      rw [dequeAppend]
      simp only [List.length_append, hlen, List.length_cons, List.length_nil,
        Nat.zero_add]
      have h4 : m + 1 - m = 1 := by omega
      rw [h4, h3, List.drop_drop]
      congr 1
      omega

/-- Membership in a bounded deque after an append comes from the old deque or
is the new element. -/
theorem mem_dequeAppend {α : Type} {m : Nat} {l : List α} {x a : α}
    (h : a ∈ dequeAppend m l x) : a ∈ l ∨ a = x := by
  have h2 := List.mem_of_mem_drop h
  rcases List.mem_append.mp h2 with h3 | h3
  · exact Or.inl h3
  · exact Or.inr (by simpa using h3)

/-- The value of `analyzeDevice` on a device with a non-empty cache, with
every intermediate of the source spelled out. -/
theorem analyzeDevice_ne_nil (cfg : Config) (now : String) (st : AnalyzerState)
    (d : String) (h : st.logs_cache d ≠ []) :
    analyzeDevice cfg now st d =
      (let logs := st.logs_cache d
       let checked :=
         alertCheck cfg d now (st.alert_windows d) (errorRatio logs)
       let last_error :=
         match (logs.filter
             (fun log => log.log_level = LogLevel.ERROR)).getLast? with
         | some e => some e
         | none => (st.device_status d).last_error
       let alerts2 := match checked.2 with
         | some a => (st.device_status d).alerts ++ [a]
         | none => (st.device_status d).alerts
       ({ st with
          device_status := fun x =>
            if x = d then { last_error := last_error, alerts := alerts2 }
            else st.device_status x
          alert_windows := fun x =>
            if x = d then checked.1 else st.alert_windows x },
        some { device_id := d, timestamp := now,
               error_ratio := errorRatio logs, warn_ratio := warnRatio logs,
               last_error := last_error, alert_count := alerts2.length },
        checked.2)) := by
  unfold analyzeDevice
  rw [if_neg h]

/-- `analyzeDevice` never touches the caches or the device list. -/
theorem analyzeDevice_frame (cfg : Config) (now : String) (st : AnalyzerState)
    (d : String) :
    (analyzeDevice cfg now st d).1.logs_cache = st.logs_cache ∧
      (analyzeDevice cfg now st d).1.devices = st.devices := by
  by_cases h : st.logs_cache d = []
  · unfold analyzeDevice
    rw [if_pos h]
    exact ⟨rfl, rfl⟩
  · unfold analyzeDevice
    rw [if_neg h]
    exact ⟨rfl, rfl⟩

/-- C2: for every capacity N and every sequence of appended entries, the
device history (a `deque(maxlen=N)` grown by `dequeAppend`) holds at most N
entries at every point of the sequence, preserves insertion order (it is
always the suffix of the most recent at most N appended entries), and after
N+1 appends the oldest appended entry is no longer present. -/
theorem history_bounded_ordered_evicting (N : Nat) (xs : List LogEntry) :
    (∀ pre post : List LogEntry, xs = pre ++ post →
      (dequeExtend N [] pre).length ≤ N) ∧
    dequeExtend N [] xs = xs.drop (xs.length - N) ∧
    (∀ e rest, xs = e :: rest → xs.length = N + 1 → e ∉ rest →
      e ∉ dequeExtend N [] xs) := by
  refine ⟨?_, dequeExtend_nil N xs, ?_⟩
  · intro pre post hsplit
    rw [dequeExtend_nil]
    simp only [List.length_drop]
    omega
  · intro e rest hx hlen hmem
    subst hx
    rw [dequeExtend_nil]
    have h1 : (e :: rest).length - N = 1 := by
      simp only [List.length_cons] at hlen ⊢
      omega
    rw [h1]
    simpa using hmem

/-- C2 witness: with N = 2 and the three distinct entries `entryE`, `entryW`,
`entryI` appended, the history never exceeds two entries, ends as the last
two entries in order, and the first appended entry has been evicted. -/
theorem history_bounded_ordered_evicting_witness :
    (dequeExtend 2 [] [entryE]).length ≤ 2 ∧
    dequeExtend 2 [] [entryE, entryW, entryI] =
      ([entryE, entryW, entryI].drop ([entryE, entryW, entryI].length - 2)) ∧
    entryE ∉ dequeExtend 2 [] [entryE, entryW, entryI] :=
  ⟨(history_bounded_ordered_evicting 2 [entryE, entryW, entryI]).1
      [entryE] [entryW, entryI] rfl,
   (history_bounded_ordered_evicting 2 [entryE, entryW, entryI]).2.1,
   (history_bounded_ordered_evicting 2 [entryE, entryW, entryI]).2.2
      entryE [entryW, entryI] rfl (by decide) (by decide)⟩

/-- The ERROR, WARN and INFO entries of a snapshot partition it. -/
theorem level_count_partition (logs : List LogEntry) :
    (logs.filter (fun log => log.log_level = LogLevel.ERROR)).length +
      (logs.filter (fun log => log.log_level = LogLevel.WARN)).length +
      (logs.filter (fun log => log.log_level = LogLevel.INFO)).length =
      logs.length := by
  induction logs with
  | nil => rfl
  | cons l ls ih =>
    cases hl : l.log_level <;>
      simp only [List.filter_cons, hl, List.length_cons] <;>
      simp <;> omega

/-- C8: for every non-empty history snapshot, `error_ratio` and `warn_ratio`
lie in [0, 1], together with the implied `info_ratio` they sum to exactly 1,
an all-ERROR snapshot gives `error_ratio = 1`, and a snapshot without ERROR
entries gives `error_ratio = 0`; the published result carries exactly these
ratios. -/
theorem ratios_unit_interval_sum_one (cfg : Config) (now : String)
    (st : AnalyzerState) (d : String) (h : st.logs_cache d ≠ []) :
    ((analyzeDevice cfg now st d).2.1.map
        (fun r => (r.error_ratio, r.warn_ratio))) =
      some (errorRatio (st.logs_cache d), warnRatio (st.logs_cache d)) ∧
    0 ≤ errorRatio (st.logs_cache d) ∧ errorRatio (st.logs_cache d) ≤ 1 ∧
    0 ≤ warnRatio (st.logs_cache d) ∧ warnRatio (st.logs_cache d) ≤ 1 ∧
    errorRatio (st.logs_cache d) + warnRatio (st.logs_cache d) +
      infoRatio (st.logs_cache d) = 1 ∧
    ((∀ log ∈ st.logs_cache d, log.log_level = LogLevel.ERROR) →
      errorRatio (st.logs_cache d) = 1) ∧
    ((∀ log ∈ st.logs_cache d, log.log_level ≠ LogLevel.ERROR) →
      errorRatio (st.logs_cache d) = 0) := by
  have hlen : 0 < (st.logs_cache d).length := List.length_pos.mpr h
  have ht : (0 : ℚ) < ((st.logs_cache d).length : ℚ) := by
    exact_mod_cast hlen
  have ht0 : ((st.logs_cache d).length : ℚ) ≠ 0 := ne_of_gt ht
  refine ⟨?_, ?_, ?_, ?_, ?_, ?_, ?_, ?_⟩
  · rw [analyzeDevice_ne_nil cfg now st d h]
    rfl
  · exact div_nonneg (by positivity) (le_of_lt ht)
  · exact div_le_one_of_le₀
      (by exact_mod_cast List.length_filter_le _ _) (le_of_lt ht)
  · exact div_nonneg (by positivity) (le_of_lt ht)
  · exact div_le_one_of_le₀
      (by exact_mod_cast List.length_filter_le _ _) (le_of_lt ht)
  · unfold errorRatio warnRatio infoRatio
    rw [div_add_div_same, div_add_div_same]
    rw [div_eq_one_iff_eq ht0]
    exact_mod_cast level_count_partition (st.logs_cache d)
  · intro hall
    have hfe : (st.logs_cache d).filter
        (fun log => log.log_level = LogLevel.ERROR) = st.logs_cache d := by
      apply List.filter_eq_self.mpr
      intro a ha
      exact decide_eq_true (hall a ha)
    unfold errorRatio
    rw [hfe]
    exact div_self ht0
  · intro hnone
    have hfe : (st.logs_cache d).filter
        (fun log => log.log_level = LogLevel.ERROR) = [] := by
      apply List.filter_eq_nil_iff.mpr
      intro a ha
      simpa using hnone a ha
    unfold errorRatio
    rw [hfe]
    simp

/-- C8 witness: on a snapshot with one entry of each level the three ratios
are each 1/3 and sum to one. -/
theorem ratios_unit_interval_sum_one_witness :
    mixedState.logs_cache "device1" ≠ [] ∧
    errorRatio (mixedState.logs_cache "device1") +
      warnRatio (mixedState.logs_cache "device1") +
      infoRatio (mixedState.logs_cache "device1") = 1 ∧
    0 ≤ errorRatio (mixedState.logs_cache "device1") :=
  ⟨by decide,
   (ratios_unit_interval_sum_one smallConfig "now" mixedState "device1"
      (by decide)).2.2.2.2.2.1,
   (ratios_unit_interval_sum_one smallConfig "now" mixedState "device1"
      (by decide)).2.1⟩

/-- C4: on every analysis of a device with data, the published `last_error`
is the newest ERROR entry in the snapshot (first found scanning newest to
oldest); when the snapshot has no ERROR entry it is the previously stored
value, unchanged. The stored value is updated to the same thing. -/
theorem last_error_newest_or_sticky (cfg : Config) (now : String)
    (st : AnalyzerState) (d : String) (h : st.logs_cache d ≠ []) :
    ((analyzeDevice cfg now st d).2.1.map (fun r => r.last_error)) =
      some (newestErrorElse (st.logs_cache d)
        ((st.device_status d).last_error)) ∧
    ((analyzeDevice cfg now st d).1.device_status d).last_error =
      newestErrorElse (st.logs_cache d) ((st.device_status d).last_error) := by
  have hmatch :
      (match ((st.logs_cache d).filter
          (fun log => log.log_level = LogLevel.ERROR)).getLast? with
        | some e => some e
        | none => (st.device_status d).last_error) =
      newestErrorElse (st.logs_cache d) ((st.device_status d).last_error) := by
    unfold newestErrorElse
    rw [List.filter_getLast?]
  rw [analyzeDevice_ne_nil cfg now st d h]
  refine ⟨congrArg some hmatch, ?_⟩
  dsimp only
  rw [if_pos rfl]
  exact hmatch

/-- C4 witness: a cycle whose snapshot holds only an INFO entry leaves the
earlier stored ERROR as the published `last_error` (stickiness), and on a
snapshot with an ERROR entry the newest one is published. -/
theorem last_error_newest_or_sticky_witness :
    quietState.logs_cache "device1" ≠ [] ∧
    ((analyzeDevice defaultConfig "now" quietState "device1").2.1.map
        (fun r => r.last_error)) =
      some (newestErrorElse (quietState.logs_cache "device1")
        ((quietState.device_status "device1").last_error)) ∧
    newestErrorElse (quietState.logs_cache "device1")
        ((quietState.device_status "device1").last_error) = some entryE :=
  ⟨by decide,
   (last_error_newest_or_sticky defaultConfig "now" quietState "device1"
      (by decide)).1,
   by decide⟩

/-- Below capacity, the alert check just appends the sample. -/
theorem alertCheck_below_capacity (cfg : Config) (d now : String) (w : List ℚ)
    (r : ℚ) (h : w.length + 1 < cfg.alert_window) :
    alertCheck cfg d now w r = (w ++ [r], none) := by
  have happ : dequeAppend cfg.alert_window w r = w ++ [r] :=
    dequeAppend_eq_of_lt _ _ _ (by omega)
  have hlen : (dequeAppend cfg.alert_window w r).length ≠ cfg.alert_window := by
    rw [happ]
    simp only [List.length_append, List.length_cons, List.length_nil,
      Nat.zero_add]
    omega
  unfold alertCheck
  rw [if_neg hlen, happ]

/-- Folding the alert check over too few samples to fill the window emits
nothing and accumulates the samples. -/
theorem alertFold_below (cfg : Config) (d now : String) :
    ∀ (ratios w : List ℚ) (acc : List Alert),
      w.length + ratios.length < cfg.alert_window →
      List.foldl
        (fun acc2 r =>
          let c := alertCheck cfg d now acc2.1 r
          (c.1, acc2.2 ++ c.2.toList))
        (w, acc) ratios = (w ++ ratios, acc) := by
  intro ratios
  induction ratios with
  | nil =>
    intro w acc h
    simp
  | cons r rs ih =>
    intro w acc h
    simp only [List.length_cons] at h
    rw [List.foldl_cons]
    have hc := alertCheck_below_capacity cfg d now w r (by omega)
    simp only [hc, Option.toList_none, List.append_nil]
    have h2 := ih (w ++ [r]) acc
      (by
        simp only [List.length_append, List.length_cons, List.length_nil,
          Nat.zero_add]
        omega)
    rw [h2]
    simp

/-- C1: in a cycle analyzing a device with data, an alert is emitted iff,
after appending the cycle's `error_ratio` sample, the alert window holds
exactly S samples and their mean strictly exceeds the threshold; on emission
exactly one alert is produced, the device's alert counter is incremented and
the window is cleared, and a run of fewer than S fresh samples from the
cleared window can emit no further alert. -/
theorem alert_fires_iff_window_full_mean_gt (cfg : Config) (now : String)
    (st : AnalyzerState) (d : String) (h : st.logs_cache d ≠ []) :
    (analyzeDevice cfg now st d).2.2 =
      (alertCheck cfg d now (st.alert_windows d)
        (errorRatio (st.logs_cache d))).2 ∧
    (analyzeDevice cfg now st d).1.alert_windows d =
      (alertCheck cfg d now (st.alert_windows d)
        (errorRatio (st.logs_cache d))).1 ∧
    ((analyzeDevice cfg now st d).1.device_status d).alerts.length =
      (st.device_status d).alerts.length +
        (if (analyzeDevice cfg now st d).2.2.isSome then 1 else 0) ∧
    (∀ (w : List ℚ) (ratio : ℚ),
      ((alertCheck cfg d now w ratio).2.isSome = true ↔
        ((dequeAppend cfg.alert_window w ratio).length = cfg.alert_window ∧
          cfg.alert_threshold <
            (dequeAppend cfg.alert_window w ratio).sum /
              (cfg.alert_window : ℚ))) ∧
      ((alertCheck cfg d now w ratio).2.isSome = true →
        (alertCheck cfg d now w ratio).1 = []) ∧
      ((alertCheck cfg d now w ratio).2 = none →
        (alertCheck cfg d now w ratio).1 =
          dequeAppend cfg.alert_window w ratio)) ∧
    (∀ ratios : List ℚ, ratios.length < cfg.alert_window →
      (alertRun cfg d now [] ratios).2 = []) := by
  refine ⟨?_, ?_, ?_, ?_, ?_⟩
  · rw [analyzeDevice_ne_nil cfg now st d h]
  · rw [analyzeDevice_ne_nil cfg now st d h]
    dsimp only
    rw [if_pos rfl]
  · rw [analyzeDevice_ne_nil cfg now st d h]
    dsimp only
    rw [if_pos rfl]
    cases hc : (alertCheck cfg d now (st.alert_windows d)
        (errorRatio (st.logs_cache d))).2 <;>
      simp [hc]
  · intro w ratio
    unfold alertCheck
    by_cases hlen :
        (dequeAppend cfg.alert_window w ratio).length = cfg.alert_window
    · rw [if_pos hlen]
      by_cases havg : cfg.alert_threshold <
          (dequeAppend cfg.alert_window w ratio).sum / (cfg.alert_window : ℚ)
      · rw [if_pos havg]
        refine ⟨by simp [hlen, havg], fun _ => rfl, fun hcon => ?_⟩
        exact absurd hcon (by simp)
      · rw [if_neg havg]
        refine ⟨by simp [havg], by simp, fun _ => rfl⟩
    · rw [if_neg hlen]
      refine ⟨by simp [hlen], by simp, fun _ => rfl⟩
  · intro ratios hlt
    unfold alertRun
    rw [alertFold_below cfg d now ratios [] [] (by simpa using hlt)]

/-- C1 witness: with S = 2, a window holding one breaching sample and a
breaching cycle, the emitted alert is the check's verdict, and a single
fresh sample after a clear cannot alert. -/
theorem alert_fires_iff_window_full_mean_gt_witness :
    almostState.logs_cache "device1" ≠ [] ∧
    (analyzeDevice smallConfig "now" almostState "device1").2.2 =
      (alertCheck smallConfig "device1" "now"
        (almostState.alert_windows "device1")
        (errorRatio (almostState.logs_cache "device1"))).2 ∧
    (alertRun smallConfig "device1" "now" [] [1]).2 = [] :=
  ⟨by decide,
   (alert_fires_iff_window_full_mean_gt smallConfig "now" almostState
      "device1" (by decide)).1,
   (alert_fires_iff_window_full_mean_gt smallConfig "now" almostState
      "device1" (by decide)).2.2.2.2 [1] (by decide)⟩

/-- C7 counterexample: under the default configuration, a cycle that triggers
an alert (device1's window reaches ten samples of ratio 1) publishes
`alert_count = 1` although no alert had been raised before the cycle — the
alert check runs before publication, so the published count does reflect
this cycle's alert, contradicting the claim. -/
theorem publish_before_push_counterexample :
    ((analyzeDevice smallConfig "now" almostState "device1").2.2).isSome =
      true ∧
    (almostState.device_status "device1").alerts.length = 0 ∧
    ((analyzeDevice smallConfig "now" almostState "device1").2.1.map
      (fun r => r.alert_count)) = some 1 := by
  have h : almostState.logs_cache "device1" ≠ [] := by decide
  have hc : almostState.logs_cache "device1" = [entryE] := by decide
  have hratio : errorRatio (almostState.logs_cache "device1") = 1 := by
    rw [hc]
    simp [errorRatio, entryE]
  have hwin : almostState.alert_windows "device1" = [(1 : ℚ)] := by decide
  have hAppend : dequeAppend smallConfig.alert_window [(1 : ℚ)] 1 = [1, 1] := by
    simp [dequeAppend, smallConfig]
  have hcheck : (alertCheck smallConfig "device1" "now" [(1 : ℚ)] 1).2.isSome =
      true := by
    unfold alertCheck
    rw [hAppend]
    norm_num [smallConfig]
  obtain ⟨a, ha⟩ := Option.isSome_iff_exists.mp hcheck
  rw [analyzeDevice_ne_nil smallConfig "now" almostState "device1" h]
  dsimp only
  rw [hratio, hwin, ha]
  exact ⟨rfl, rfl, rfl⟩

/-- C7 amended: in each analysis cycle, for each device with data, the
`error_ratio` is pushed into the alert window and the alert check runs
before the `AnalysisResult` is published, so the published `alert_count` is
the post-check cumulative count: an alert triggered by this cycle's sample
IS reflected in this cycle's published `alert_count`. -/
theorem published_count_includes_current_alert (cfg : Config) (now : String)
    (st : AnalyzerState) (d : String) (h : st.logs_cache d ≠ []) :
    ((analyzeDevice cfg now st d).2.1.map (fun r => r.alert_count)) =
      some (((analyzeDevice cfg now st d).1.device_status d).alerts.length) ∧
    ((analyzeDevice cfg now st d).1.device_status d).alerts.length =
      (st.device_status d).alerts.length +
        (if (analyzeDevice cfg now st d).2.2.isSome then 1 else 0) := by
  constructor
  · rw [analyzeDevice_ne_nil cfg now st d h]
    dsimp only
    rw [if_pos rfl]
    rfl
  · rw [analyzeDevice_ne_nil cfg now st d h]
    dsimp only
    rw [if_pos rfl]
    cases hc : (alertCheck cfg d now (st.alert_windows d)
        (errorRatio (st.logs_cache d))).2 <;> simp [hc]

/-- C7 amended witness: in the breaching cycle the published count equals
the post-check count (here 1). -/
theorem published_count_includes_current_alert_witness :
    brinkState.logs_cache "device1" ≠ [] ∧
    ((analyzeDevice defaultConfig "now" brinkState "device1").2.1.map
        (fun r => r.alert_count)) =
      some (((analyzeDevice defaultConfig "now" brinkState
        "device1").1.device_status "device1").alerts.length) :=
  ⟨by decide,
   (published_count_includes_current_alert defaultConfig "now" brinkState
      "device1" (by decide)).1⟩

/-- `processLog` never changes the configured device list. -/
theorem processLog_devices (cfg : Config) (st : AnalyzerState) (e : LogEntry) :
    (processLog cfg st e).devices = st.devices := by
  unfold processLog
  split <;> rfl

/-- C3: one drain pass consumes the whole queue; every entry whose device id
has per-device state (which, in this program, is every entry the configured
producers enqueue) ends appended to its device's bounded history, in FIFO
order, with the oldest entry evicted at capacity N, and none of these
entries is dropped. -/
theorem drain_consumes_all_appends_in_order (cfg : Config)
    (queue : List LogEntry) (st : AnalyzerState)
    (hdev : ∀ e ∈ queue, e.device_id ∈ st.devices) :
    (process_logs cfg st queue).devices = st.devices ∧
    ∀ d, (process_logs cfg st queue).logs_cache d =
      dequeExtend cfg.analysis_window (st.logs_cache d)
        (queue.filter (fun x => x.device_id = d)) := by
  induction queue generalizing st with
  | nil => exact ⟨rfl, fun d => rfl⟩
  | cons e rest ih =>
    have he : e.device_id ∈ st.devices := hdev e (List.mem_cons_self e rest)
    have hst1 : processLog cfg st e =
        { st with logs_cache := fun d =>
            if d = e.device_id then
              dequeAppend cfg.analysis_window (st.logs_cache d) e
            else st.logs_cache d } := by
      unfold processLog
      rw [if_pos he]
    have hrest : ∀ x ∈ rest, x.device_id ∈ (processLog cfg st e).devices := by
      intro x hx
      rw [processLog_devices]
      exact hdev x (List.mem_cons_of_mem e hx)
    obtain ⟨hdev2, hcache⟩ := ih (processLog cfg st e) hrest
    have hstep : process_logs cfg st (e :: rest) =
        process_logs cfg (processLog cfg st e) rest := rfl
    constructor
    · rw [hstep, hdev2, processLog_devices]
    · intro d
      rw [hstep, hcache d, hst1]
      dsimp only
      by_cases hd : d = e.device_id
      · rw [if_pos hd]
        have hf : List.filter (fun x => x.device_id = d) (e :: rest) =
            e :: List.filter (fun x => x.device_id = d) rest := by
          simp [List.filter_cons, hd]
        rw [hf]
        rfl
      · rw [if_neg hd]
        have hf : List.filter (fun x => x.device_id = d) (e :: rest) =
            List.filter (fun x => x.device_id = d) rest := by
          have : ¬ e.device_id = d := fun hcon => hd hcon.symm
          simp [List.filter_cons, this]
        rw [hf]

/-- C3 witness: draining a three-entry queue (two device1 entries around a
device2 entry) leaves device1's history exactly its two entries in order. -/
theorem drain_consumes_all_appends_in_order_witness :
    (process_logs defaultConfig demoState
        [entryE, entryB, entryW]).logs_cache "device1" =
      dequeExtend defaultConfig.analysis_window
        (demoState.logs_cache "device1")
        ([entryE, entryB, entryW].filter
          (fun x => x.device_id = "device1")) :=
  (drain_consumes_all_appends_in_order defaultConfig [entryE, entryB, entryW]
      demoState (by decide)).2 "device1"

/-- C5: evaluating the two drains on an entry of the never-seen device id
"device4": the `log_system.py` drain leaves the analyzer state unchanged —
the `KeyError` from the missing `logs_cache` key is swallowed by the bare
`except:` and the entry is silently dropped, no state created — while the
`log_analyzer.py` drain lazily creates a fresh history holding the entry. -/
theorem unknown_device_entry_dropped :
    processLog defaultConfig demoState entryX = demoState ∧
    process_logs defaultConfig demoState [entryX] = demoState ∧
    la_ingest 100 (fun _ => none) entryX "device4" = some [entryX] := by
  have h1 : processLog defaultConfig demoState entryX = demoState := by
    unfold processLog
    rw [if_neg (by decide)]
  exact ⟨h1, h1, by decide⟩

/-- C6: startup validation (modelled from the spec; the source has only
hard-coded constants) rejects N <= 0, T <= 0, S <= 0 and a threshold outside
(0, 1) eagerly, each with a message naming the invalid parameter, before any
analyzer state exists; a valid configuration starts the analyzer. -/
theorem config_validated_at_startup (N T S : Int) (t : ℚ)
    (devices : List String) :
    (N ≤ 0 → startAnalyzer N T S t devices =
      Except.error "invalid analysis_window N: must be > 0") ∧
    (0 < N → T ≤ 0 → startAnalyzer N T S t devices =
      Except.error "invalid analysis_interval T: must be > 0") ∧
    (0 < N → 0 < T → S ≤ 0 → startAnalyzer N T S t devices =
      Except.error "invalid alert_window S: must be > 0") ∧
    (0 < N → 0 < T → 0 < S → ¬ (0 < t ∧ t < 1) →
      startAnalyzer N T S t devices =
        Except.error
          "invalid alert_threshold: must satisfy 0 < threshold < 1") ∧
    (0 < N → 0 < T → 0 < S → 0 < t → t < 1 →
      startAnalyzer N T S t devices = Except.ok (initState devices)) := by
  unfold startAnalyzer validateConfig
  refine ⟨?_, ?_, ?_, ?_, ?_⟩
  · intro h1
    rw [if_pos h1]
  · intro h1 h2
    rw [if_neg (by omega), if_pos h2]
  · intro h1 h2 h3
    rw [if_neg (by omega), if_neg (by omega), if_pos h3]
  · intro h1 h2 h3 h4
    rw [if_neg (by omega), if_neg (by omega), if_neg (by omega), if_pos h4]
  · intro h1 h2 h3 h4 h5
    rw [if_neg (by omega), if_neg (by omega), if_neg (by omega),
      if_neg (not_not_intro ⟨h4, h5⟩)]

/-- C6 witness: N = 0 is rejected naming `analysis_window`, and the default
valid configuration (N=20, T=5, S=10, threshold 1/2) starts successfully. -/
theorem config_validated_at_startup_witness :
    ((0 : Int) ≤ 0) ∧
    startAnalyzer 0 5 10 (1/2) demoDevices =
      Except.error "invalid analysis_window N: must be > 0" ∧
    startAnalyzer 20 5 10 (1/2) demoDevices =
      Except.ok (initState demoDevices) :=
  ⟨le_refl 0,
   (config_validated_at_startup 0 5 10 (1/2) demoDevices).1 (le_refl 0),
   (config_validated_at_startup 20 5 10 (1/2) demoDevices).2.2.2.2
      (by norm_num) (by norm_num) (by norm_num) (by norm_num) (by norm_num)⟩

/-- C9: the analysis pipeline is deterministic — from freshly reset state,
replaying an identical schedule of ingested entries and analysis-cycle
timestamps yields identical `AnalysisResult` and `Alert` output streams,
field for field. -/
theorem pipeline_deterministic (cfg : Config) (devices : List String)
    (cycles1 cycles2 : List (List LogEntry × String)) (h : cycles1 = cycles2) :
    (runPipeline cfg (initState devices) cycles1).2 =
      (runPipeline cfg (initState devices) cycles2).2 := by
  rw [h]

/-- C9 witness: replaying a concrete one-cycle schedule from reset state
reproduces the same outputs. -/
theorem pipeline_deterministic_witness :
    (runPipeline defaultConfig (initState demoDevices)
        [([entryE, entryB], "t6")]).2 =
      (runPipeline defaultConfig (initState demoDevices)
        [([entryE, entryB], "t6")]).2 :=
  pipeline_deterministic defaultConfig demoDevices
    [([entryE, entryB], "t6")] [([entryE, entryB], "t6")] rfl

/-- Draining one entry preserves the C10 invariant when every entry of the
device is non-ERROR. -/
theorem processLog_clean (cfg : Config) {d : String} {st : AnalyzerState}
    {e : LogEntry} (hst : CleanFor d st)
    (he : e.device_id = d → e.log_level ≠ LogLevel.ERROR) :
    CleanFor d (processLog cfg st e) := by
  unfold processLog
  split
  · constructor
    · intro x hx
      dsimp only at hx
      by_cases hd : d = e.device_id
      · rw [if_pos hd] at hx
        rcases mem_dequeAppend hx with hmem | hEq
        · exact hst.1 x hmem
        · subst hEq
          exact he hd.symm
      · rw [if_neg hd] at hx
        exact hst.1 x hx
    · exact hst.2
  · exact hst

/-- Draining a whole queue preserves the C10 invariant. -/
theorem process_logs_clean (cfg : Config) {d : String} :
    ∀ (queue : List LogEntry) {st : AnalyzerState}, CleanFor d st →
      (∀ e ∈ queue, e.device_id = d → e.log_level ≠ LogLevel.ERROR) →
      CleanFor d (process_logs cfg st queue) := by
  intro queue
  induction queue with
  | nil =>
    intro st h _
    exact h
  | cons e rest ih =>
    intro st h hq
    exact ih (processLog_clean cfg h (hq e (List.mem_cons_self e rest)))
      (fun x hx => hq x (List.mem_cons_of_mem e hx))

/-- On an all-zero window and a zero sample, the alert check emits nothing
and keeps the window all-zero (the threshold is strictly positive). -/
theorem alertCheck_zero (cfg : Config) (dd now : String) (w : List ℚ)
    (hthr : 0 < cfg.alert_threshold) (hw : ∀ x ∈ w, x = 0) :
    (alertCheck cfg dd now w 0).2 = none ∧
      ∀ x ∈ (alertCheck cfg dd now w 0).1, x = 0 := by
  have hw1 : ∀ x ∈ dequeAppend cfg.alert_window w 0, x = 0 := by
    intro x hx
    rcases mem_dequeAppend hx with h | h
    · exact hw x h
    · exact h
  have hsum : (dequeAppend cfg.alert_window w 0).sum = 0 :=
    List.sum_eq_zero hw1
  unfold alertCheck
  by_cases hlen : (dequeAppend cfg.alert_window w 0).length = cfg.alert_window
  · rw [if_pos hlen]
    have hno : ¬ (cfg.alert_threshold <
        (dequeAppend cfg.alert_window w 0).sum / (cfg.alert_window : ℚ)) := by
      rw [hsum]
      simp only [zero_div]
      exact not_lt.mpr (le_of_lt hthr)
    rw [if_neg hno]
    exact ⟨rfl, hw1⟩
  · rw [if_neg hlen]
    exact ⟨rfl, hw1⟩

/-- A snapshot with no ERROR entry has `error_ratio = 0`. -/
theorem errorRatio_eq_zero {logs : List LogEntry}
    (h : ∀ e ∈ logs, e.log_level ≠ LogLevel.ERROR) : errorRatio logs = 0 := by
  unfold errorRatio
  have hf : logs.filter (fun log => log.log_level = LogLevel.ERROR) = [] := by
    apply List.filter_eq_nil_iff.mpr
    intro a ha
    simpa using h a ha
  rw [hf]
  simp

/-- Any alert the check emits names the checked device. -/
theorem alertCheck_device_id (cfg : Config) (dd now : String) (w : List ℚ)
    (r : ℚ) (a : Alert) (h : (alertCheck cfg dd now w r).2 = some a) :
    a.device_id = dd := by
  unfold alertCheck at h
  by_cases hlen : (dequeAppend cfg.alert_window w r).length = cfg.alert_window
  · rw [if_pos hlen] at h
    by_cases havg : cfg.alert_threshold <
        (dequeAppend cfg.alert_window w r).sum / (cfg.alert_window : ℚ)
    · rw [if_pos havg] at h
      simp only [Option.some.injEq] at h
      rw [← h]
    · rw [if_neg havg] at h
      simp at h
  · rw [if_neg hlen] at h
    simp at h

/-- Analyzing any one device preserves the C10 invariant of device `d` and
emits no alert carrying `d`. -/
theorem analyzeDevice_clean (cfg : Config) (now : String) {d : String}
    (st : AnalyzerState) (d' : String) (hthr : 0 < cfg.alert_threshold)
    (hst : CleanFor d st) :
    CleanFor d (analyzeDevice cfg now st d').1 ∧
      ∀ a, (analyzeDevice cfg now st d').2.2 = some a → a.device_id ≠ d := by
  by_cases hnil : st.logs_cache d' = []
  · unfold analyzeDevice
    rw [if_pos hnil]
    exact ⟨hst, fun a ha => absurd ha (by simp)⟩
  · rw [analyzeDevice_ne_nil cfg now st d' hnil]
    by_cases hd : d' = d
    · subst hd
      have hratio : errorRatio (st.logs_cache d') = 0 :=
        errorRatio_eq_zero hst.1
      have hzero := alertCheck_zero cfg d' now (st.alert_windows d') hthr hst.2
      constructor
      · constructor
        · intro x hx
          exact hst.1 x hx
        · intro x hx
          dsimp only at hx
          rw [if_pos rfl, hratio] at hx
          exact hzero.2 x hx
      · intro a ha
        dsimp only at ha
        rw [hratio, hzero.1] at ha
        simp at ha
    · constructor
      · constructor
        · intro x hx
          exact hst.1 x hx
        · intro x hx
          dsimp only at hx
          rw [if_neg (fun hcon => hd hcon.symm)] at hx
          exact hst.2 x hx
      · intro a ha
        dsimp only at ha
        have hid := alertCheck_device_id cfg d' now (st.alert_windows d')
          (errorRatio (st.logs_cache d')) a ha
        rw [hid]
        exact hd

/-- The per-device analysis loop preserves the C10 invariant and adds no
alert carrying `d` to the output stream. -/
theorem analyzeSteps_clean (cfg : Config) (now : String) {d : String}
    (hthr : 0 < cfg.alert_threshold) :
    ∀ (ds : List String) (st : AnalyzerState)
      (rs : List AnalysisResult) (as2 : List Alert),
      CleanFor d st → (∀ a ∈ as2, a.device_id ≠ d) →
      CleanFor d (List.foldl (analyzeFoldStep cfg now) (st, rs, as2) ds).1 ∧
        ∀ a ∈ (List.foldl (analyzeFoldStep cfg now) (st, rs, as2) ds).2.2,
          a.device_id ≠ d := by
  intro ds
  induction ds with
  | nil =>
    intro st rs as2 h1 h2
    exact ⟨h1, h2⟩
  | cons d' ds ih =>
    intro st rs as2 h1 h2
    rw [List.foldl_cons]
    have hstep := analyzeDevice_clean cfg now st d' hthr h1
    apply ih
    · exact hstep.1
    · intro a ha
      rcases List.mem_append.mp ha with h | h
      · exact h2 a h
      · have hsome : (analyzeDevice cfg now st d').2.2 = some a := by
          cases ho : (analyzeDevice cfg now st d').2.2 with
          | none =>
            rw [ho] at h
            cases h
          | some b =>
            rw [ho] at h
            simp at h
            rw [h]
        exact hstep.2 a hsome

/-- Whole cycles preserve the C10 invariant and add no alert carrying `d`. -/
theorem pipeline_clean (cfg : Config) {d : String}
    (hthr : 0 < cfg.alert_threshold) :
    ∀ (cycles : List (List LogEntry × String)) (st : AnalyzerState)
      (rs : List AnalysisResult) (as2 : List Alert),
      CleanFor d st → (∀ a ∈ as2, a.device_id ≠ d) →
      (∀ c ∈ cycles, ∀ e ∈ c.1,
        e.device_id = d → e.log_level ≠ LogLevel.ERROR) →
      CleanFor d (List.foldl (pipelineStep cfg) (st, rs, as2) cycles).1 ∧
        ∀ a ∈ (List.foldl (pipelineStep cfg) (st, rs, as2) cycles).2.2,
          a.device_id ≠ d := by
  intro cycles
  induction cycles with
  | nil =>
    intro st rs as2 h1 h2 _
    exact ⟨h1, h2⟩
  | cons c cs ih =>
    intro st rs as2 h1 h2 hcl
    rw [List.foldl_cons]
    have hdrain : CleanFor d (process_logs cfg st c.1) :=
      process_logs_clean cfg c.1 h1
        (fun e he => hcl c (List.mem_cons_self c cs) e he)
    have hana := analyzeSteps_clean cfg c.2 hthr
      (process_logs cfg st c.1).devices (process_logs cfg st c.1) [] []
      hdrain (by simp)
    apply ih
    · exact hana.1
    · intro a ha
      rcases List.mem_append.mp ha with h | h
      · exact h2 a h
      · exact hana.2 a h
    · intro c2 hc2 e he
      exact hcl c2 (List.mem_cons_of_mem c hc2) e he

/-- C10: a device that never ingests an ERROR entry never receives an alert
in any run of the pipeline from reset state: every sample entering its alert
window is 0, so the window mean can never exceed the strictly positive
threshold. -/
theorem never_error_never_alert (cfg : Config) (devices : List String)
    (cycles : List (List LogEntry × String)) (d : String)
    (hthr : 0 < cfg.alert_threshold)
    (hclean : ∀ c ∈ cycles, ∀ e ∈ c.1,
      e.device_id = d → e.log_level ≠ LogLevel.ERROR) :
    (runPipeline cfg (initState devices) cycles).2.2.filter
      (fun a => a.device_id = d) = [] := by
  have hinit : CleanFor d (initState devices) :=
    ⟨fun e he => absurd he (by simp [initState]),
     fun x hx => absurd hx (by simp [initState])⟩
  have h := pipeline_clean cfg hthr cycles (initState devices) [] []
    hinit (by simp) hclean
  apply List.filter_eq_nil_iff.mpr
  intro a ha
  simpa using h.2 a ha

/-- C10 witness: over a schedule in which device1 only ingests INFO entries,
the default-configuration pipeline emits no alert for device1. -/
theorem never_error_never_alert_witness :
    (0 : ℚ) < defaultConfig.alert_threshold ∧
    (runPipeline defaultConfig (initState demoDevices) quietCycles).2.2.filter
      (fun a => a.device_id = "device1") = [] :=
  ⟨by norm_num [defaultConfig],
   never_error_never_alert defaultConfig demoDevices quietCycles "device1"
      (by norm_num [defaultConfig]) (by decide)⟩

end LogSystem
